import Mathlib

/-!
Shallow embedding of `mp4_builder.py`: hourly MP4 timelapse builder over
per-day per-camera JPEG snapshot directories.

Modelling choices:
* Timestamps and mtimes are `Int` seconds on a linear local-time axis;
  a day is identified by the timestamp of its midnight (`day_dt`).
  `datetime` field arithmetic (`replace`, `timedelta`) becomes integer
  arithmetic on that axis.
* A directory is `Option (List DirEntry)` (`none` = directory absent);
  a `DirEntry` carries the name, whether it is a regular file, and
  `stat : Option Int` (`none` = `OSError` from `entry.stat()`).
* The stable Python `list.sort(key=mtime)` is modelled by the stable
  `List.insertionSort` on the mtime component.
* The filesystem side effects of `build_hour_mp4` are modelled as a trace of
  `FsOp` operations in program order together with a flag telling whether
  the call raised (ffmpeg non-zero exit status).
-/

namespace Mp4Builder

/-- File names, as character lists (Python `str`). -/
abbrev Name := List Char

/-- Constant `OVERLAP_MINUTES = 5` from the CONFIG block. -/
def OVERLAP_MINUTES : Nat := 5

/-- Constant `MIN_FRAMES_DEFAULT = 30` from the CONFIG block. -/
def MIN_FRAMES_DEFAULT : Nat := 30

/-- Tuple `JPEG_EXTS = (".jpg", ".jpeg", ".JPG", ".JPEG")`. -/
def JPEG_EXTS : List Name :=
  [".jpg".toList, ".jpeg".toList, ".JPG".toList, ".JPEG".toList]

/-- Python `name.endswith(exts)` for a tuple of suffixes: true iff some
member of the tuple is a suffix of `name`. -/
def endswithAny (name : Name) (exts : List Name) : Bool :=
  exts.any (fun e => e.isSuffixOf name)

/-- One `os.scandir` entry: name, regular-file flag, and the result of
`entry.stat()` (`none` models an `OSError`). -/
structure DirEntry where
  name : Name
  isFile : Bool
  stat : Option Int
deriving DecidableEq

/-- A directory: `none` when the directory does not exist. -/
abbrev Dir := Option (List DirEntry)

/-- The body of the `scandir` loop in `list_jpgs_in_range`: an entry is
selected iff it is a regular file, has a recognised JPEG suffix, `stat`
succeeds, and the mtime lies in `[start_ts, end_ts)`. -/
def selectEntry (start_ts end_ts : Int) (e : DirEntry) : Option (Name × Int) :=
  if !e.isFile then none
  else if !endswithAny e.name JPEG_EXTS then none
  else
    match e.stat with
    | none => none
    | some mt => if mt < start_ts || end_ts ≤ mt then none else some (e.name, mt)

/-- Function `list_jpgs_in_range(dir_path, start_dt, end_dt)`: `(name, mtime)` pairs
of selected entries, sorted ascending by mtime (`out.sort(key=mtime)`).
A missing directory yields `[]`. -/
def list_jpgs_in_range (dir : Dir) (start_ts end_ts : Int) : List (Name × Int) :=
  match dir with
  | none => []
  | some entries =>
      List.insertionSort (fun a b => a.2 ≤ b.2)
        (entries.filterMap (selectEntry start_ts end_ts))

/-- Function `newest_mtime(frames)`: mtime of the last frame (list sorted by mtime),
`None` when empty. -/
def newest_mtime (frames : List (Name × Int)) : Option Int :=
  frames.getLast?.map Prod.snd

/-- Function `should_skip_past_hour(out_mp4, frames, ...)`. The artifact state is
`Option Int`: `none` = output file absent, `some m` = present with mtime
`m`. Skip iff the output exists and its mtime is ≥ the newest frame mtime
(or no frames at all). -/
def should_skip_past_hour (artifactMtime : Option Int)
    (frames : List (Name × Int)) : Bool :=
  match artifactMtime with
  | none => false
  | some out_mt =>
      match newest_mtime frames with
      | none => true
      | some src => decide (src ≤ out_mt)

/-- Function `hour_window(day_dt, hour)`: start `day HH:00:00`, end
`start + 1h + OVERLAP_MINUTES`. -/
def hour_window (day_dt : Int) (hour : Nat) : Int × Int :=
  let start := day_dt + (hour : Int) * 3600
  (start, start + 3600 + (OVERLAP_MINUTES : Int) * 60)

/-- Filesystem operations performed by `build_hour_mp4`, in program order. -/
inductive FsOp where
  | mkdirParents
  | writeConcatList
  | runEncoder (ok : Bool)
  | copyToFinal
  | deleteTempDir
deriving DecidableEq

/-- Function `build_hour_mp4`: returns the trace of filesystem operations and whether
the call raised. Below the frame minimum it returns at once (no ops, no
raise). Otherwise it makes the output directory, enters the
`TemporaryDirectory` block, writes the concat list and runs ffmpeg; on
encoder success it copies the temp MP4 into the final path; the temp
directory is removed when the block exits, also when `run_ffmpeg_concat`
raised (non-zero exit status), in which case the exception propagates. -/
def build_hour_mp4 (encoderOk : Bool) (frames : List (Name × Int))
    (min_frames : Nat) : List FsOp × Bool :=
  if frames.length < min_frames then ([], false)
  else if encoderOk then
    ([.mkdirParents, .writeConcatList, .runEncoder true, .copyToFinal,
      .deleteTempDir], false)
  else
    ([.mkdirParents, .writeConcatList, .runEncoder false, .deleteTempDir], true)

/-- Outcome of one iteration of the hour loop in `build_for_camera_day`. -/
inductive HourOutcome where
  | skippedNoFrames
  | skippedUpToDate
  | skippedFewFrames
  | builtOk
  | buildFailed
deriving DecidableEq

/-- The `try: build_hour_mp4 ... except Exception` block: a raise from
`build_hour_mp4` is caught (`buildFailed`); a normal return is `builtOk`
when the final copy happened, else the too-few-frames early return. -/
def try_build_hour (encoderOk : Bool) (frames : List (Name × Int))
    (min_frames : Nat) : HourOutcome :=
  match build_hour_mp4 encoderOk frames min_frames with
  | (_, true) => .buildFailed
  | (ops, false) =>
      if FsOp.copyToFinal ∈ ops then .builtOk else .skippedFewFrames

/-- Value of `datetime.now()` as seen by the code: its timestamp on the time axis and
its `hour` field. -/
structure NowT where
  ts : Int
  hour : Nat

/-- Frame selection for one hour of `build_for_camera_day`: window from
`hour_window`, end clamped to `now` for the current in-progress hour;
for hour 0 additionally the `[23:55, 24:00)` range of the previous day is
prepended when the camera directory of the previous day exists. -/
def frames_for_hour (day_dt : Int) (isToday : Bool) (now : NowT)
    (currentHour : Nat) (dayDir prevDayDir : Dir) (hour : Nat) :
    List (Name × Int) :=
  let se := hour_window day_dt hour
  let end_dt := if isToday && hour == currentHour then now.ts else se.2
  if hour == 0 then
    (match prevDayDir with
     | some _ =>
         list_jpgs_in_range prevDayDir (day_dt - (OVERLAP_MINUTES : Int) * 60)
           day_dt
     | none => []) ++ list_jpgs_in_range dayDir se.1 end_dt
  else
    list_jpgs_in_range dayDir se.1 end_dt

/-- One iteration of the hour loop: empty window → skip; past hour with an
up-to-date artifact → skip; otherwise the guarded `build_hour_mp4` call. -/
def process_hour (min_frames : Nat) (day_dt : Int) (isToday : Bool)
    (now : NowT) (currentHour : Nat) (dayDir prevDayDir : Dir)
    (artifactMtime : Option Int) (encoderOk : Bool) (hour : Nat) :
    HourOutcome :=
  let frames := frames_for_hour day_dt isToday now currentHour dayDir
    prevDayDir hour
  if frames.isEmpty then .skippedNoFrames
  else if !(isToday && hour == currentHour) &&
      should_skip_past_hour artifactMtime frames then .skippedUpToDate
  else try_build_hour encoderOk frames min_frames

/-- Inputs of one `build_for_camera_day` call: the midnight of the day,
whether that day is today, `now`, the camera directories of the day and of
the previous day,
the pre-run artifact state per hour, and the encoder outcome per hour. -/
structure CameraDayInput where
  day_dt : Int
  isToday : Bool
  now : NowT
  dayDir : Dir
  prevDayDir : Dir
  artifactMtime : Nat → Option Int
  encoderOk : Nat → Bool

/-- Assignment `current_hour = now.hour if is_today else 23`. -/
def current_hour (isToday : Bool) (now : NowT) : Nat :=
  if isToday then now.hour else 23

/-- The outcomes of the hour loop `for hour in range(0, current_hour + 1)`. -/
def day_outcomes (min_frames : Nat) (inp : CameraDayInput) :
    List HourOutcome :=
  (List.range (current_hour inp.isToday inp.now + 1)).map (fun h =>
    process_hour min_frames inp.day_dt inp.isToday inp.now
      (current_hour inp.isToday inp.now) inp.dayDir inp.prevDayDir
      (inp.artifactMtime h) (inp.encoderOk h) h)

/-- Whether an hour outcome increments `built` (`build_hour_mp4` returned
without raising, i.e. the `built += 1` line runs). -/
def hourCountsAsBuilt : HourOutcome → Bool
  | .builtOk => true
  | .skippedFewFrames => true
  | _ => false

/-- Whether an hour outcome actually wrote/overwrote the artifact file. -/
def hourWritesArtifact : HourOutcome → Bool
  | .builtOk => true
  | _ => false

/-- Whether an hour outcome invoked the encoder subprocess. -/
def hourInvokesEncoder : HourOutcome → Bool
  | .builtOk => true
  | .buildFailed => true
  | _ => false

/-- Function `build_for_camera_day`: 0 when the camera-day directory is missing,
otherwise the number of hour iterations whose `build_hour_mp4` call
returned without raising. -/
def build_for_camera_day (min_frames : Nat) (inp : CameraDayInput) : Nat :=
  match inp.dayDir with
  | none => 0
  | some _ => (day_outcomes min_frames inp).countP hourCountsAsBuilt

/-- Number of hour iterations that wrote or overwrote an artifact file. -/
def artifacts_written (min_frames : Nat) (inp : CameraDayInput) : Nat :=
  match inp.dayDir with
  | none => 0
  | some _ => (day_outcomes min_frames inp).countP hourWritesArtifact

/-- Function `main` after the configuration phase succeeded: the camera loop summing
`build_for_camera_day`, then the completion summary and `return 0`.
Result: (total built, exit status). -/
def main_run (min_frames : Nat) (cams : List CameraDayInput) : Nat × Nat :=
  (cams.foldl (fun acc c => acc + build_for_camera_day min_frames c) 0, 0)

instance : IsTotal (Name × Int) (fun a b => a.2 ≤ b.2) :=
  ⟨fun a b => le_total a.2 b.2⟩

instance : IsTrans (Name × Int) (fun a b => a.2 ≤ b.2) :=
  ⟨fun _ _ _ h h' => le_trans h h'⟩

/-- Five frames in the window of hour 10 of a non-today day, below the default
minimum of 30; no pre-existing artifacts; encoder always succeeds. -/
def c9Input : CameraDayInput :=
  ⟨0, false, ⟨0, 0⟩,
   some [⟨"f1.jpg".toList, true, some 36400⟩,
         ⟨"f2.jpg".toList, true, some 36401⟩,
         ⟨"f3.jpg".toList, true, some 36402⟩,
         ⟨"f4.jpg".toList, true, some 36403⟩,
         ⟨"f5.jpg".toList, true, some 36404⟩],
   none, fun _ => none, fun _ => true⟩

theorem selectEntry_eq_some_iff (s t : Int) (e : DirEntry) (n : Name) (mt : Int) :
    selectEntry s t e = some (n, mt) ↔
      e.isFile = true ∧ endswithAny e.name JPEG_EXTS = true ∧
        e.stat = some mt ∧ e.name = n ∧ s ≤ mt ∧ mt < t := by
  rcases e with ⟨na, fl, st⟩
  cases fl with
  | false => simp [selectEntry]
  | true =>
      cases hx : endswithAny na JPEG_EXTS with
      | false => simp [selectEntry, hx]
      | true =>
          cases st with
          | none => simp [selectEntry, hx]
          | some mt' =>
              by_cases hr : mt' < s ∨ t ≤ mt'
              · have hb : (decide (mt' < s) || decide (t ≤ mt')) = true := by
                  rcases hr with h | h <;> simp [h]
                simp [selectEntry, hx, hb]
                omega
              · have hb : (decide (mt' < s) || decide (t ≤ mt')) = false := by
                  push_neg at hr
                  simp [hr.1, hr.2, not_lt.mpr, not_le.mpr]
                simp [selectEntry, hx, hb]
                push_neg at hr
                constructor
                · rintro ⟨rfl, rfl⟩
                  exact ⟨rfl, rfl, by omega, by omega⟩
                · rintro ⟨rfl, rfl, _, _⟩
                  exact ⟨rfl, rfl⟩


theorem mem_list_jpgs_iff (es : List DirEntry) (s t : Int) (n : Name) (mt : Int) :
    (n, mt) ∈ list_jpgs_in_range (some es) s t ↔
      ∃ e ∈ es, e.isFile = true ∧ endswithAny e.name JPEG_EXTS = true ∧
        e.stat = some mt ∧ e.name = n ∧ s ≤ mt ∧ mt < t := by
  simp only [list_jpgs_in_range, List.mem_insertionSort, List.mem_filterMap,
    selectEntry_eq_some_iff]

theorem sorted_list_jpgs (dir : Dir) (s t : Int) :
    (list_jpgs_in_range dir s t).Sorted (fun a b => a.2 ≤ b.2) := by
  cases dir with
  | none => simp [list_jpgs_in_range]
  | some es => exact List.sorted_insertionSort _ _

theorem mem_list_jpgs_bounds (dir : Dir) (s t : Int) (p : Name × Int)
    (hp : p ∈ list_jpgs_in_range dir s t) : s ≤ p.2 ∧ p.2 < t := by
  cases dir with
  | none => simp [list_jpgs_in_range] at hp
  | some es =>
      rcases p with ⟨n, mt⟩
      rw [mem_list_jpgs_iff] at hp
      obtain ⟨e, _, _, _, _, _, h5, h6⟩ := hp
      exact ⟨h5, h6⟩


/-- C5: the frame selector returns exactly the regular files with a
recognised JPEG suffix and successful stat whose mtime is in `[start, end)`,
sorted by non-decreasing mtime; a missing directory yields `[]` and a stat
failure skips only that entry. -/
theorem c5_selector_contract (s t : Int) (dir : Dir) (es : List DirEntry)
    (n : Name) (mt : Int) :
    list_jpgs_in_range none s t = [] ∧
    (list_jpgs_in_range dir s t).Sorted (fun a b => a.2 ≤ b.2) ∧
    ((n, mt) ∈ list_jpgs_in_range (some es) s t ↔
      ∃ e ∈ es, e.isFile = true ∧ endswithAny e.name JPEG_EXTS = true ∧
        e.stat = some mt ∧ e.name = n ∧ s ≤ mt ∧ mt < t) :=
  ⟨rfl, sorted_list_jpgs dir s t, mem_list_jpgs_iff es s t n mt⟩

/-- C3: hour 0 selects the previous-day `[23:55, 24:00)` frames followed
by the current-day `[00:00, 01:05)` frames (end clamped to `now` when
hour 0 is the current hour); the result is chronologically ordered, and a
missing previous-day directory just contributes nothing. -/
theorem c3_hour_zero_window (day_dt : Int) (isToday : Bool) (now : NowT)
    (currentHour : Nat) (dayDir prevDayDir : Dir) :
    frames_for_hour day_dt isToday now currentHour dayDir prevDayDir 0 =
      list_jpgs_in_range prevDayDir (day_dt - 300) day_dt ++
        list_jpgs_in_range dayDir day_dt
          (if isToday && 0 == currentHour then now.ts else day_dt + 3900) ∧
    (frames_for_hour day_dt isToday now currentHour dayDir prevDayDir 0).Sorted
      (fun a b => a.2 ≤ b.2) ∧
    frames_for_hour day_dt isToday now currentHour dayDir none 0 =
      list_jpgs_in_range dayDir day_dt
        (if isToday && 0 == currentHour then now.ts else day_dt + 3900) := by
  have hmain : ∀ pd : Dir,
      frames_for_hour day_dt isToday now currentHour dayDir pd 0 =
        list_jpgs_in_range pd (day_dt - 300) day_dt ++
          list_jpgs_in_range dayDir day_dt
            (if isToday && 0 == currentHour then now.ts else day_dt + 3900) := by
    intro pd
    cases pd with
    | none =>
        simp only [frames_for_hour, hour_window, OVERLAP_MINUTES]
        norm_num [list_jpgs_in_range]
        rw [show day_dt + 3600 + 300 = day_dt + 3900 from by ring]
    | some es =>
        simp only [frames_for_hour, hour_window, OVERLAP_MINUTES]
        norm_num
        rw [show day_dt + 3600 + 300 = day_dt + 3900 from by ring]
  refine ⟨hmain prevDayDir, ?_, ?_⟩
  · rw [hmain prevDayDir]
    show List.Pairwise _ (_ ++ _)
    rw [List.pairwise_append]
    refine ⟨sorted_list_jpgs _ _ _, sorted_list_jpgs _ _ _, ?_⟩
    intro a ha b hb
    have h1 := mem_list_jpgs_bounds _ _ _ _ ha
    have h2 := mem_list_jpgs_bounds _ _ _ _ hb
    show a.2 ≤ b.2
    omega
  · rw [hmain none]
    simp [list_jpgs_in_range]

/-- C4: for a past hour `HH ≥ 1`, the selected frames are exactly the JPEG
files of the camera-day directory with mtime in
`[day HH:00:00, day (HH+1):00:00 + 5 min)`. -/
theorem c4_regular_hour_window (day_dt : Int) (isToday : Bool) (now : NowT)
    (currentHour hour : Nat) (dayDir prevDayDir : Dir) (es : List DirEntry)
    (n : Name) (mt : Int)
    (h1 : 1 ≤ hour) (h2 : ¬(isToday = true ∧ hour = currentHour)) :
    frames_for_hour day_dt isToday now currentHour dayDir prevDayDir hour =
      list_jpgs_in_range dayDir (day_dt + (hour : Int) * 3600)
        (day_dt + (hour : Int) * 3600 + 3900) ∧
    (dayDir = some es →
      ((n, mt) ∈ frames_for_hour day_dt isToday now currentHour dayDir
          prevDayDir hour ↔
        ∃ e ∈ es, e.isFile = true ∧ endswithAny e.name JPEG_EXTS = true ∧
          e.stat = some mt ∧ e.name = n ∧
          day_dt + (hour : Int) * 3600 ≤ mt ∧
            mt < day_dt + (hour : Int) * 3600 + 3900)) := by
  have hh0 : (hour == 0) = false := by
    simp only [beq_eq_false_iff_ne, ne_eq]
    omega
  have hcond : (isToday && hour == currentHour) = false := by
    cases isToday with
    | false => simp
    | true =>
        have : hour ≠ currentHour := fun hc => h2 ⟨rfl, hc⟩
        simp [this]
  have hmain : frames_for_hour day_dt isToday now currentHour dayDir
      prevDayDir hour =
      list_jpgs_in_range dayDir (day_dt + (hour : Int) * 3600)
        (day_dt + (hour : Int) * 3600 + 3900) := by
    simp only [frames_for_hour, hour_window, OVERLAP_MINUTES, hh0, hcond]
    norm_num
    rw [show day_dt + (hour : Int) * 3600 + 3600 + 300 =
      day_dt + (hour : Int) * 3600 + 3900 from by ring]
  refine ⟨hmain, fun hd => ?_⟩
  rw [hmain, hd]
  exact mem_list_jpgs_iff es _ _ n mt

/-- Witness for C4 at hour 10 of a non-today day: the boundary mtimes
`10:00:00`, `10:59:59` and `11:04:59` are selected and `11:05:00` is not. -/
theorem c4_regular_hour_window_witness :
    ((1 : Nat) ≤ 10 ∧ ¬((false : Bool) = true ∧ (10 : Nat) = 23)) ∧
    (frames_for_hour 0 false ⟨0, 0⟩ 23
        (some [⟨"a.jpg".toList, true, some 36000⟩,
               ⟨"b.jpg".toList, true, some 39599⟩,
               ⟨"c.jpg".toList, true, some 39899⟩,
               ⟨"d.jpg".toList, true, some 39900⟩]) none 10 =
      list_jpgs_in_range
        (some [⟨"a.jpg".toList, true, some 36000⟩,
               ⟨"b.jpg".toList, true, some 39599⟩,
               ⟨"c.jpg".toList, true, some 39899⟩,
               ⟨"d.jpg".toList, true, some 39900⟩])
        (0 + (10 : Nat) * 3600) (0 + (10 : Nat) * 3600 + 3900)) ∧
    (frames_for_hour 0 false ⟨0, 0⟩ 23
        (some [⟨"a.jpg".toList, true, some 36000⟩,
               ⟨"b.jpg".toList, true, some 39599⟩,
               ⟨"c.jpg".toList, true, some 39899⟩,
               ⟨"d.jpg".toList, true, some 39900⟩]) none 10).map Prod.snd =
      [36000, 39599, 39899] :=
  ⟨⟨by decide, by decide⟩,
    (c4_regular_hour_window 0 false ⟨0, 0⟩ 23 10
        (some [⟨"a.jpg".toList, true, some 36000⟩,
               ⟨"b.jpg".toList, true, some 39599⟩,
               ⟨"c.jpg".toList, true, some 39899⟩,
               ⟨"d.jpg".toList, true, some 39900⟩]) none
        [⟨"a.jpg".toList, true, some 36000⟩] [] 0
        (by decide) (by decide)).1,
    by decide⟩

theorem not_current_cond (isToday : Bool) (hour currentHour : Nat)
    (h : ¬(isToday = true ∧ hour = currentHour)) :
    (isToday && hour == currentHour) = false := by
  cases isToday with
  | false => simp
  | true =>
      have : hour ≠ currentHour := fun hc => h ⟨rfl, hc⟩
      simp [this]

theorem try_build_hour_invokes (encoderOk : Bool)
    (frames : List (Name × Int)) (min_frames : Nat)
    (h : min_frames ≤ frames.length) :
    hourInvokesEncoder (try_build_hour encoderOk frames min_frames) = true := by
  have hlt : ¬ frames.length < min_frames := by omega
  cases encoderOk <;>
    simp [try_build_hour, build_hour_mp4, hlt, hourInvokesEncoder]

/-- C1: for a past hour with a non-empty frame list, an existing artifact at
least as new as the newest frame makes the builder skip: no encoder
invocation, no rewrite of the artifact. -/
theorem c1_skip_up_to_date (min_frames : Nat) (day_dt : Int) (isToday : Bool)
    (now : NowT) (currentHour hour : Nat) (dayDir prevDayDir : Dir)
    (out_mt src : Int) (encoderOk : Bool)
    (hpast : ¬(isToday = true ∧ hour = currentHour))
    (hne : frames_for_hour day_dt isToday now currentHour dayDir prevDayDir
      hour ≠ [])
    (hnewest : newest_mtime (frames_for_hour day_dt isToday now currentHour
      dayDir prevDayDir hour) = some src)
    (hout : src ≤ out_mt) :
    process_hour min_frames day_dt isToday now currentHour dayDir prevDayDir
      (some out_mt) encoderOk hour = .skippedUpToDate ∧
    hourInvokesEncoder (process_hour min_frames day_dt isToday now currentHour
      dayDir prevDayDir (some out_mt) encoderOk hour) = false ∧
    hourWritesArtifact (process_hour min_frames day_dt isToday now currentHour
      dayDir prevDayDir (some out_mt) encoderOk hour) = false := by
  have hcond := not_current_cond isToday hour currentHour hpast
  have hempty : (frames_for_hour day_dt isToday now currentHour dayDir
      prevDayDir hour).isEmpty = false := by
    simp [List.isEmpty_iff, hne]
  have hskip : should_skip_past_hour (some out_mt)
      (frames_for_hour day_dt isToday now currentHour dayDir prevDayDir hour) =
      true := by
    simp only [should_skip_past_hour, hnewest]
    simpa using hout
  have hres : process_hour min_frames day_dt isToday now currentHour dayDir
      prevDayDir (some out_mt) encoderOk hour = .skippedUpToDate := by
    simp [process_hour, hempty, hcond, hskip]
  exact ⟨hres, by rw [hres]; rfl, by rw [hres]; rfl⟩

/-- Witness for C1: hour 2 of a non-today day, one frame at 02:01:40,
artifact mtime 8000 ≥ 7300. -/
theorem c1_skip_up_to_date_witness :
    (¬((false : Bool) = true ∧ (2 : Nat) = 23) ∧
      frames_for_hour 0 false ⟨0, 0⟩ 23
        (some [⟨"a.jpg".toList, true, some 7300⟩]) none 2 ≠ [] ∧
      newest_mtime (frames_for_hour 0 false ⟨0, 0⟩ 23
        (some [⟨"a.jpg".toList, true, some 7300⟩]) none 2) = some 7300 ∧
      (7300 : Int) ≤ 8000) ∧
    process_hour 30 0 false ⟨0, 0⟩ 23
      (some [⟨"a.jpg".toList, true, some 7300⟩]) none (some 8000) true 2 =
      .skippedUpToDate ∧
    hourInvokesEncoder (process_hour 30 0 false ⟨0, 0⟩ 23
      (some [⟨"a.jpg".toList, true, some 7300⟩]) none (some 8000) true 2) =
      false ∧
    hourWritesArtifact (process_hour 30 0 false ⟨0, 0⟩ 23
      (some [⟨"a.jpg".toList, true, some 7300⟩]) none (some 8000) true 2) =
      false :=
  ⟨⟨by decide, by decide, by decide, by decide⟩,
    c1_skip_up_to_date 30 0 false ⟨0, 0⟩ 23 2
      (some [⟨"a.jpg".toList, true, some 7300⟩]) none 8000 7300 true
      (by decide) (by decide) (by decide) (by decide)⟩

/-- C2: for the current in-progress hour of today, the window ends at `now`
(no selected frame has mtime ≥ now), the outcome ignores any existing
artifact and its mtime, and with enough frames the encoder is invoked. -/
theorem c2_current_hour_always_rebuilt (min_frames : Nat) (day_dt : Int)
    (now : NowT) (currentHour hour : Nat) (dayDir prevDayDir : Dir)
    (a₁ a₂ : Option Int) (encoderOk : Bool) (n : Name) (mt : Int)
    (hcur : hour = currentHour)
    (hday : day_dt ≤ now.ts)
    (hmem : (n, mt) ∈ frames_for_hour day_dt true now currentHour dayDir
      prevDayDir hour)
    (hmin : min_frames ≤ (frames_for_hour day_dt true now currentHour dayDir
      prevDayDir hour).length) :
    frames_for_hour day_dt true now currentHour dayDir prevDayDir hour =
      (if hour == 0 then
        (match prevDayDir with
         | some _ => list_jpgs_in_range prevDayDir (day_dt - 300) day_dt
         | none => []) else []) ++
        list_jpgs_in_range dayDir (day_dt + (hour : Int) * 3600) now.ts ∧
    mt < now.ts ∧
    process_hour min_frames day_dt true now currentHour dayDir prevDayDir a₁
      encoderOk hour =
      process_hour min_frames day_dt true now currentHour dayDir prevDayDir a₂
        encoderOk hour ∧
    hourInvokesEncoder (process_hour min_frames day_dt true now currentHour
      dayDir prevDayDir a₁ encoderOk hour) = true := by
  subst hcur
  have hc : (true && (hour == hour)) = true := by simp
  have heq : frames_for_hour day_dt true now hour dayDir prevDayDir hour =
      (if hour == 0 then
        (match prevDayDir with
         | some _ => list_jpgs_in_range prevDayDir (day_dt - 300) day_dt
         | none => []) else []) ++
        list_jpgs_in_range dayDir (day_dt + (hour : Int) * 3600) now.ts := by
    cases h0 : hour == 0 with
    | true =>
        have h0' : hour = 0 := by simpa using h0
        subst h0'
        simp only [frames_for_hour, hour_window, OVERLAP_MINUTES, hc]
        norm_num
    | false =>
        simp only [frames_for_hour, hour_window, OVERLAP_MINUTES, hc, h0]
        norm_num
  refine ⟨heq, ?_, ?_, ?_⟩
  · rw [heq] at hmem
    rcases List.mem_append.mp hmem with hl | hr
    · cases h0 : hour == 0 with
      | true =>
          rw [h0] at hl
          simp only [if_true] at hl
          cases prevDayDir with
          | none => simp at hl
          | some es =>
              have := mem_list_jpgs_bounds _ _ _ _ hl
              simp only at this
              omega
      | false =>
          rw [h0] at hl
          simp at hl
    · have := mem_list_jpgs_bounds _ _ _ _ hr
      simp only at this
      omega
  · have hsc : (!(true && (hour == hour))) = false := by simp
    simp [process_hour, hsc]
  · have hne : frames_for_hour day_dt true now hour dayDir prevDayDir hour
        ≠ [] := by
      intro hnil
      rw [hnil] at hmem
      simp at hmem
    have hempty : (frames_for_hour day_dt true now hour dayDir prevDayDir
        hour).isEmpty = false := by simp [List.isEmpty_iff, hne]
    have hsc : (!(true && (hour == hour))) = false := by simp
    simp only [process_hour, hempty, hsc, Bool.false_and, if_false,
      Bool.false_eq_true]
    exact try_build_hour_invokes encoderOk _ min_frames hmin

/-- Witness for C2: current hour 0 of today, `now` at 00:30, one frame,
minimum 1; an arbitrarily new pre-existing artifact (mtime 999999) is
ignored. -/
theorem c2_current_hour_always_rebuilt_witness :
    ((0 : Nat) = 0 ∧ (0 : Int) ≤ (1800 : Int) ∧
      (("a.jpg".toList, (100 : Int)) ∈ frames_for_hour 0 true ⟨1800, 0⟩ 0
        (some [⟨"a.jpg".toList, true, some 100⟩]) none 0) ∧
      (1 : Nat) ≤ (frames_for_hour 0 true ⟨1800, 0⟩ 0
        (some [⟨"a.jpg".toList, true, some 100⟩]) none 0).length) ∧
    (frames_for_hour 0 true ⟨1800, 0⟩ 0
        (some [⟨"a.jpg".toList, true, some 100⟩]) none 0 =
      (if (0 : Nat) == 0 then
        (match (none : Dir) with
         | some _ => list_jpgs_in_range none ((0 : Int) - 300) 0
         | none => []) else []) ++
        list_jpgs_in_range (some [⟨"a.jpg".toList, true, some 100⟩])
          ((0 : Int) + ((0 : Nat) : Int) * 3600) (1800 : Int)) ∧
    (100 : Int) < (1800 : Int) ∧
    process_hour 1 0 true ⟨1800, 0⟩ 0
      (some [⟨"a.jpg".toList, true, some 100⟩]) none none true 0 =
      process_hour 1 0 true ⟨1800, 0⟩ 0
        (some [⟨"a.jpg".toList, true, some 100⟩]) none (some 999999) true 0 ∧
    hourInvokesEncoder (process_hour 1 0 true ⟨1800, 0⟩ 0
      (some [⟨"a.jpg".toList, true, some 100⟩]) none none true 0) = true :=
  ⟨⟨rfl, by decide, by decide, by decide⟩,
    c2_current_hour_always_rebuilt 1 0 ⟨1800, 0⟩ 0 0
      (some [⟨"a.jpg".toList, true, some 100⟩]) none none (some 999999) true
      "a.jpg".toList 100 rfl (by decide) (by decide) (by decide)⟩

/-- C6: in `build_hour_mp4` the final path is written exactly when the
encoder succeeded with enough frames and at most once; the call raises iff
the encoder failed after being invoked; the temporary work area is removed
on every exit path that created it; and in the operation order the copy
into place happens only after a successful encoder run. -/
theorem c6_atomic_publish (ok : Bool) (frames : List (Name × Int))
    (min_frames : Nat) :
    (FsOp.copyToFinal ∈ (build_hour_mp4 ok frames min_frames).1 ↔
      ok = true ∧ min_frames ≤ frames.length) ∧
    ((build_hour_mp4 ok frames min_frames).2 = true ↔
      ok = false ∧ min_frames ≤ frames.length) ∧
    (FsOp.deleteTempDir ∈ (build_hour_mp4 ok frames min_frames).1 ↔
      min_frames ≤ frames.length) ∧
    (build_hour_mp4 ok frames min_frames).1.count FsOp.copyToFinal ≤ 1 ∧
    ((build_hour_mp4 ok frames min_frames).1.filter
        (fun o => o == FsOp.runEncoder true || o == FsOp.copyToFinal) = [] ∨
      (build_hour_mp4 ok frames min_frames).1.filter
        (fun o => o == FsOp.runEncoder true || o == FsOp.copyToFinal) =
        [FsOp.runEncoder true, FsOp.copyToFinal]) := by
  by_cases hlt : frames.length < min_frames
  · cases ok <;>
      simp [build_hour_mp4, hlt]
  · have hle : min_frames ≤ frames.length := Nat.not_lt.mp hlt
    cases ok
    · simp only [build_hour_mp4, if_neg hlt, if_neg (by simp : ¬false = true)]
      exact ⟨by simp, by simp [hle], by simp [hle], by decide, by decide⟩
    · simp only [build_hour_mp4, if_neg hlt, if_pos rfl]
      exact ⟨by simp [hle], by simp, by simp [hle], by decide, by decide⟩

/-- C7: an empty window or a frame count below the minimum yields no encoder
invocation and no artifact write; a frame count exactly at the minimum (for
an hour not skipped as up to date) triggers a build attempt. -/
theorem c7_min_frames_gate (min_frames : Nat) (day_dt : Int) (isToday : Bool)
    (now : NowT) (currentHour hour : Nat) (dayDir prevDayDir : Dir)
    (artifactMtime : Option Int) (encoderOk : Bool) :
    (frames_for_hour day_dt isToday now currentHour dayDir prevDayDir hour
        = [] →
      hourInvokesEncoder (process_hour min_frames day_dt isToday now
        currentHour dayDir prevDayDir artifactMtime encoderOk hour) = false ∧
      hourWritesArtifact (process_hour min_frames day_dt isToday now
        currentHour dayDir prevDayDir artifactMtime encoderOk hour) = false) ∧
    ((frames_for_hour day_dt isToday now currentHour dayDir prevDayDir
        hour).length < min_frames →
      hourInvokesEncoder (process_hour min_frames day_dt isToday now
        currentHour dayDir prevDayDir artifactMtime encoderOk hour) = false ∧
      hourWritesArtifact (process_hour min_frames day_dt isToday now
        currentHour dayDir prevDayDir artifactMtime encoderOk hour) = false) ∧
    ((frames_for_hour day_dt isToday now currentHour dayDir prevDayDir
        hour).length = min_frames → 0 < min_frames →
      ((isToday = true ∧ hour = currentHour) ∨
        should_skip_past_hour artifactMtime (frames_for_hour day_dt isToday
          now currentHour dayDir prevDayDir hour) = false) →
      hourInvokesEncoder (process_hour min_frames day_dt isToday now
        currentHour dayDir prevDayDir artifactMtime encoderOk hour) = true) := by
  refine ⟨?_, ?_, ?_⟩
  · intro hnil
    have : process_hour min_frames day_dt isToday now currentHour dayDir
        prevDayDir artifactMtime encoderOk hour = .skippedNoFrames := by
      simp [process_hour, hnil]
    rw [this]
    exact ⟨rfl, rfl⟩
  · intro hlt
    by_cases hnil : frames_for_hour day_dt isToday now currentHour dayDir
        prevDayDir hour = []
    · have : process_hour min_frames day_dt isToday now currentHour dayDir
          prevDayDir artifactMtime encoderOk hour = .skippedNoFrames := by
        simp [process_hour, hnil]
      rw [this]
      exact ⟨rfl, rfl⟩
    · have hempty : (frames_for_hour day_dt isToday now currentHour dayDir
          prevDayDir hour).isEmpty = false := by simp [List.isEmpty_iff, hnil]
      by_cases hsc : (!(isToday && hour == currentHour) &&
          should_skip_past_hour artifactMtime (frames_for_hour day_dt isToday
            now currentHour dayDir prevDayDir hour)) = true
      · have : process_hour min_frames day_dt isToday now currentHour dayDir
            prevDayDir artifactMtime encoderOk hour = .skippedUpToDate := by
          simp only [process_hour]
          rw [if_neg (by simp [hempty]), if_pos hsc]
        rw [this]
        exact ⟨rfl, rfl⟩
      · have : process_hour min_frames day_dt isToday now currentHour dayDir
            prevDayDir artifactMtime encoderOk hour =
            try_build_hour encoderOk (frames_for_hour day_dt isToday now
              currentHour dayDir prevDayDir hour) min_frames := by
          simp only [process_hour]
          rw [if_neg (by simp [hempty]), if_neg hsc]
        rw [this]
        have : try_build_hour encoderOk (frames_for_hour day_dt isToday now
            currentHour dayDir prevDayDir hour) min_frames =
            .skippedFewFrames := by
          simp [try_build_hour, build_hour_mp4, hlt]
        rw [this]
        exact ⟨rfl, rfl⟩
  · intro hlen hpos hns
    have hnil : frames_for_hour day_dt isToday now currentHour dayDir
        prevDayDir hour ≠ [] := by
      intro h
      rw [h] at hlen
      simp at hlen
      omega
    have hempty : (frames_for_hour day_dt isToday now currentHour dayDir
        prevDayDir hour).isEmpty = false := by simp [List.isEmpty_iff, hnil]
    have hsc : (!(isToday && hour == currentHour) &&
        should_skip_past_hour artifactMtime (frames_for_hour day_dt isToday
          now currentHour dayDir prevDayDir hour)) = false := by
      rcases hns with hcur | hskip
      · have : (isToday && hour == currentHour) = true := by
          simp [hcur.1, hcur.2]
        simp [this]
      · simp [hskip]
    have : process_hour min_frames day_dt isToday now currentHour dayDir
        prevDayDir artifactMtime encoderOk hour =
        try_build_hour encoderOk (frames_for_hour day_dt isToday now
          currentHour dayDir prevDayDir hour) min_frames := by
      simp only [process_hour]
      rw [if_neg (by simp [hempty]), if_neg (by rw [hsc]; simp)]
    rw [this]
    exact try_build_hour_invokes encoderOk _ min_frames (le_of_eq hlen.symm)

/-- Witness for C7: with 1 frame and minimum 30 nothing is encoded or
written; with 1 frame and minimum 1 (artifact absent, so no up-to-date
skip) the encoder is invoked. -/
theorem c7_min_frames_gate_witness :
    (hourInvokesEncoder (process_hour 30 0 false ⟨0, 0⟩ 23
        (some [⟨"a.jpg".toList, true, some 7300⟩]) none none true 2) = false ∧
      hourWritesArtifact (process_hour 30 0 false ⟨0, 0⟩ 23
        (some [⟨"a.jpg".toList, true, some 7300⟩]) none none true 2) = false) ∧
    hourInvokesEncoder (process_hour 1 0 false ⟨0, 0⟩ 23
      (some [⟨"a.jpg".toList, true, some 7300⟩]) none none true 2) = true :=
  ⟨(c7_min_frames_gate 30 0 false ⟨0, 0⟩ 23 2
      (some [⟨"a.jpg".toList, true, some 7300⟩]) none none true).2.1
      (by decide),
    (c7_min_frames_gate 1 0 false ⟨0, 0⟩ 23 2
      (some [⟨"a.jpg".toList, true, some 7300⟩]) none none true).2.2
      (by decide) (by decide) (Or.inr (by decide))⟩

/-- C8: per-hour failures are contained at the hour boundary: the run always
exits 0 after configuration, every hour of the range gets an outcome
whatever the per-hour encoder results are, and the outcome of hour `h`
depends only on the encoder result of hour `h` itself. -/
theorem c8_failures_contained (min_frames : Nat) (cams : List CameraDayInput)
    (inp : CameraDayInput) (e₁ e₂ : Nat → Bool) (h : Nat)
    (hagree : e₁ h = e₂ h) :
    (main_run min_frames cams).2 = 0 ∧
    (day_outcomes min_frames inp).length =
      current_hour inp.isToday inp.now + 1 ∧
    (day_outcomes min_frames (CameraDayInput.mk inp.day_dt inp.isToday
        inp.now inp.dayDir inp.prevDayDir inp.artifactMtime e₁))[h]? =
      (day_outcomes min_frames (CameraDayInput.mk inp.day_dt inp.isToday
        inp.now inp.dayDir inp.prevDayDir inp.artifactMtime e₂))[h]? := by
  refine ⟨rfl, ?_, ?_⟩
  · simp [day_outcomes]
  · simp only [day_outcomes, List.getElem?_map]
    by_cases hlt : h < current_hour inp.isToday inp.now + 1
    · rw [List.getElem?_range (by simpa using hlt)]
      simp only [Option.map_some']
      rw [hagree]
    · rw [List.getElem?_eq_none (by simpa using Nat.le_of_not_lt hlt)]
      rfl

/-- Witness for C8 on a concrete one-hour camera-day: two encoder oracles
that agree at hour 0 give the same hour-0 outcome, the outcome list covers
every hour, and the exit status is 0. -/
theorem c8_failures_contained_witness :
    (main_run 30 []).2 = 0 ∧
    (day_outcomes 30 ⟨0, true, ⟨1800, 0⟩, some [], none,
      fun _ => none, fun _ => true⟩).length =
      current_hour true ⟨1800, 0⟩ + 1 ∧
    (day_outcomes 30 ⟨0, true, ⟨1800, 0⟩, some [], none, fun _ => none,
      fun _ => true⟩)[0]? =
      (day_outcomes 30 ⟨0, true, ⟨1800, 0⟩, some [], none, fun _ => none,
        fun n => n == 0⟩)[0]? :=
  c8_failures_contained 30 [] ⟨0, true, ⟨1800, 0⟩, some [], none,
    fun _ => none, fun _ => true⟩ (fun _ => true) (fun n => n == 0) 0 rfl


/-- C9: the returned count includes an hour whose `build_hour_mp4` call
skipped for too few frames and wrote no artifact: with 5 frames in hour 10
and minimum 30 the builder writes nothing yet reports 1 built. -/
theorem c9_built_count_includes_skipped_hour :
    build_for_camera_day 30 c9Input = 1 ∧
    artifacts_written 30 c9Input = 0 ∧
    (day_outcomes 30 c9Input)[10]? = some .skippedFewFrames := by
  decide

/-- C10 counterexample: a regular file named `a.Jpg` with mtime inside the
window is not a frame candidate — the mixed-case suffix `.Jpg` is not in
`JPEG_EXTS`, so extension matching is not case-insensitive. -/
theorem c10_mixed_case_suffix_rejected :
    endswithAny "a.Jpg".toList JPEG_EXTS = false ∧
    list_jpgs_in_range (some [⟨"a.Jpg".toList, true, some 10⟩]) 0 100 = [] := by
  decide

/-- C10 (amended): candidacy is exact-suffix matching against the four
literal suffixes `.jpg`, `.jpeg`, `.JPG`, `.JPEG`: a regular file ending in
one of exactly these is a candidate (and selected when stat succeeds and
the mtime is in range), and everything selected bears one of them. -/
theorem c10_exact_suffix_match (es : List DirEntry) (e : DirEntry)
    (mt s t : Int) (n' : Name) (mt' : Int)
    (he : e ∈ es) (hf : e.isFile = true)
    (hx : List.isSuffixOf ".jpg".toList e.name = true ∨
      List.isSuffixOf ".jpeg".toList e.name = true ∨
      List.isSuffixOf ".JPG".toList e.name = true ∨
      List.isSuffixOf ".JPEG".toList e.name = true)
    (hs : e.stat = some mt) (h1 : s ≤ mt) (h2 : mt < t)
    (hmem : (n', mt') ∈ list_jpgs_in_range (some es) s t) :
    endswithAny e.name JPEG_EXTS = true ∧
    (e.name, mt) ∈ list_jpgs_in_range (some es) s t ∧
    endswithAny n' JPEG_EXTS = true := by
  have hext : endswithAny e.name JPEG_EXTS = true := by
    simp only [endswithAny, JPEG_EXTS, List.any_cons, List.any_nil,
      Bool.or_eq_true, Bool.or_false]
    tauto
  refine ⟨hext, ?_, ?_⟩
  · exact (mem_list_jpgs_iff es s t e.name mt).mpr
      ⟨e, he, hf, hext, hs, rfl, h1, h2⟩
  · obtain ⟨e', he', hf', hx', hs', hn', _, _⟩ :=
      (mem_list_jpgs_iff es s t n' mt').mp hmem
    rw [← hn']
    exact hx'

/-- Witness for the amended C10 on a one-entry directory. -/
theorem c10_exact_suffix_match_witness :
    endswithAny "a.jpg".toList JPEG_EXTS = true ∧
    ("a.jpg".toList, (10 : Int)) ∈
      list_jpgs_in_range (some [⟨"a.jpg".toList, true, some 10⟩]) 0 100 ∧
    endswithAny "a.jpg".toList JPEG_EXTS = true :=
  c10_exact_suffix_match [⟨"a.jpg".toList, true, some 10⟩]
    ⟨"a.jpg".toList, true, some 10⟩ 10 0 100 "a.jpg".toList 10
    (by decide) (by decide) (Or.inl (by decide)) (by decide) (by decide)
    (by decide) (by decide)

end Mp4Builder
